import Mathlib

/-!
Verification development for the `validator` repository.

The repository has two crates:

* `validation` - the runtime library: the error vocabulary
  (`ValidationError`, `ValidationErrorResponse`), the validation traits
  (`Validation`, `StateValidation`, `FieldValidation`) with their blanket
  implementations for shared references, and the rule helper functions
  `is_not_null` and `is_in_collection`.
* `validation_derive` - the derive macro `FieldValidate`: it parses a
  struct definition, resolves each field, classifies its type, and emits
  the body of `validate_fields`.

Each Rust item is embedded shallowly below, keeping the source structure:
pure functions become Lean functions, fallible compile-time processing
becomes `Except`, Rust `Result<T, ValidationError>` becomes
`Except ValidationError T`, and the emitted token streams of the derive
are represented by small syntactic datatypes (`ParamExpr`, `Check`) that
record exactly the information the emitted code contains.
-/

namespace validation

/-- Embeds `const BAD_REQUEST: i32 = 400;` from `validation/src/error.rs`. -/
def BAD_REQUEST : Int := 400

/-- Embeds `const UNPROCESSABLE_ENTITY: i32 = 422;` from `validation/src/error.rs`. -/
def UNPROCESSABLE_ENTITY : Int := 422

/-- Embeds `enum ValidationError` from `validation/src/error.rs`. -/
inductive ValidationError : Type
  | FieldMismatch (message : String)
  | InvalidState (message : String)
deriving DecidableEq

/-- Embeds `struct ValidationErrorResponse` from `validation/src/error.rs`.
The `i32` fields are modelled by `Int`; all codes the library produces are
tiny, so `i32` overflow is never in play. -/
structure ValidationErrorResponse : Type where
  error_code : Int
  error_message : String
deriving DecidableEq

/-- Embeds `ValidationErrorResponse::new` from `validation/src/error.rs`. -/
def ValidationErrorResponse.new (error_code : Int) (error_message : String) :
    ValidationErrorResponse :=
  { error_code := error_code, error_message := error_message }

/-- Embeds `ValidationErrorResponse::default` from `validation/src/error.rs`. -/
def ValidationErrorResponse.default : ValidationErrorResponse :=
  { error_code := 500, error_message := "Internal Server Error" }

/-- Embeds `impl From<ValidationError> for ValidationErrorResponse`
from `validation/src/error.rs`. -/
def ValidationErrorResponse.from : ValidationError → ValidationErrorResponse
  | ValidationError.FieldMismatch s => ValidationErrorResponse.new BAD_REQUEST s
  | ValidationError.InvalidState s => ValidationErrorResponse.new UNPROCESSABLE_ENTITY s

/-- Embeds `pub type ValidationResult<T> = std::result::Result<T, ValidationError>;`
from `validation/src/validation.rs`. -/
def ValidationResult (T : Type) : Type := Except ValidationError T

/-- Embeds the trait `StateValidation` from `validation/src/validation.rs`
as a dictionary of its single method. -/
structure StateValidation (T : Type) : Type where
  validate_state : T → ValidationResult Unit

/-- Embeds the trait `FieldValidation` from `validation/src/validation.rs`
as a dictionary of its single method. -/
structure FieldValidation (T : Type) : Type where
  validate_fields : T → ValidationResult Unit

/-- Embeds the trait `Validation: StateValidation + FieldValidation`
from `validation/src/validation.rs`. -/
structure Validation (T : Type) extends StateValidation T, FieldValidation T where
  validate : T → ValidationResult Unit

/-- A shared reference `&T`. In the shallow embedding a read-only reference
is the referent itself; dereferencing (`*self`) is the identity. -/
def Ref (T : Type) : Type := T

/-- Dereference, `*self` in the Rust blanket implementations. -/
def Ref.deref {T : Type} (r : Ref T) : T := r

/-- Embeds `impl<T: StateValidation> StateValidation for &T` from
`validation/src/validation.rs`: `validate_state` delegates to
`T::validate_state(*self)`. -/
def StateValidation.refImpl {T : Type} (inst : StateValidation T) :
    StateValidation (Ref T) :=
  { validate_state := fun self => inst.validate_state self.deref }

/-- Embeds `impl<T: FieldValidation> FieldValidation for &T` from
`validation/src/validation.rs`: `validate_fields` delegates to
`T::validate_fields(*self)`. -/
def FieldValidation.refImpl {T : Type} (inst : FieldValidation T) :
    FieldValidation (Ref T) :=
  { validate_fields := fun self => inst.validate_fields self.deref }

/-- Embeds `impl<T: Validation> Validation for &T` from
`validation/src/validation.rs`: `validate` delegates to `T::validate(*self)`;
the two parent capabilities come from their own blanket implementations. -/
def Validation.refImpl {T : Type} (inst : Validation T) : Validation (Ref T) :=
  { toStateValidation := inst.toStateValidation.refImpl
    toFieldValidation := inst.toFieldValidation.refImpl
    validate := fun self => inst.validate self.deref }

/-- Embeds `pub fn is_not_null<T>(val: &Option<T>) -> bool` from
`validation/src/not_null.rs`: returns whether the `Option` is `Some`. -/
def is_not_null {T : Type} (val : Option T) : Bool := val.isSome

/-- Embeds `pub fn is_in_collection<T: PartialEq + PartialOrd>(value: T, collection: Vec<T>) -> bool`
from `validation/src/is_in_collection.rs`: iterate over the collection and
return `true` at the first element equal to `value`, `false` if the loop
finishes. Rust `PartialEq` is modelled by decidable equality. -/
def is_in_collection {T : Type} [DecidableEq T] (value : T) :
    List T → Bool
  | [] => false
  | item :: rest => if item = value then true else is_in_collection value rest

end validation

/-- Decidable equality of `Except` values, used to evaluate the embedded
compile-time pipeline on concrete inputs. -/
instance {E A : Type} [DecidableEq E] [DecidableEq A] : DecidableEq (Except E A) :=
  fun x y =>
    match x, y with
    | Except.ok a, Except.ok b =>
      if h : a = b then isTrue (by rw [h])
      else isFalse (by intro hh; cases hh; exact h rfl)
    | Except.ok _, Except.error _ => isFalse (by intro hh; cases hh)
    | Except.error _, Except.ok _ => isFalse (by intro hh; cases hh)
    | Except.error e, Except.error f =>
      if h : e = f then isTrue (by rw [h])
      else isFalse (by intro hh; cases hh; exact h rfl)

/-- Decidable equality of `ValidationResult` values. -/
instance {T : Type} [DecidableEq T] : DecidableEq (validation.ValidationResult T) :=
  inferInstanceAs (DecidableEq (Except validation.ValidationError T))

namespace validation_derive

/-- The ASCII apostrophe character, written via its code point. -/
def tick : Char := Char.ofNat 39

/-- ASCII lower-case letter, the character class `[a-z]` of the `COW_TYPE`
regular expression in `validation_derive/src/quotation.rs`. -/
def isLowerAscii (c : Char) : Bool := decide ('a' ≤ c) && decide (c ≤ 'z')

/-- The characters `Cow<` followed by an apostrophe: the literal head of the
`COW_TYPE` pattern. -/
def cowHead : List Char := ['C', 'o', 'w', '<', tick]

/-- The characters `,str>`: the literal tail of the `COW_TYPE` pattern. -/
def cowTail : List Char := [',', 's', 't', 'r', '>']

/-- Does the `COW_TYPE` pattern match at the start of `cs`? The pattern is
the head `Cow<` + apostrophe, one or more lower-case letters, then `,str>`.
Greedy consumption of the letter run is exact here because `,` is not a
lower-case letter. -/
def cowMatchAt (cs : List Char) : Bool :=
  cowHead.isPrefixOf cs &&
    (let rest := (cs.drop 5).dropWhile isLowerAscii
     !((cs.drop 5).takeWhile isLowerAscii).isEmpty && cowTail.isPrefixOf rest)

/-- Does the `COW_TYPE` pattern match anywhere in the character list?
`Regex::is_match` searches for the pattern at every position. -/
def cowMatchList : List Char → Bool
  | [] => false
  | c :: rest => cowMatchAt (c :: rest) || cowMatchList rest

/-- Embeds `COW_TYPE.is_match(..)` from `validation_derive/src/quotation.rs`,
where `COW_TYPE` is the regular expression `Cow` `<` apostrophe `[a-z]+,str>`
(the pattern is spelled with character lists above). -/
def COW_TYPE_is_match (s : String) : Bool := cowMatchList s.data

/-- Rust `str::starts_with` on textual type descriptors. -/
def strStartsWith (s p : String) : Bool := p.data.isPrefixOf s.data

/-- Embeds `pub const NUMBER_TYPES: [&str; 36]` from
`validation_derive/src/quotation.rs`. -/
def NUMBER_TYPES : List String :=
  ["usize", "u8", "u16", "u32", "u64",
   "isize", "i8", "i16", "i32", "i64",
   "f32", "f64",
   "Option<usize>", "Option<u8>", "Option<u16>", "Option<u32>", "Option<u64>",
   "Option<isize>", "Option<i8>", "Option<i16>", "Option<i32>", "Option<i64>",
   "Option<f32>", "Option<f64>",
   "Option<Option<usize>>", "Option<Option<u8>>", "Option<Option<u16>>",
   "Option<Option<u32>>", "Option<Option<u64>>", "Option<Option<isize>>",
   "Option<Option<i8>>", "Option<Option<i16>>", "Option<Option<i32>>",
   "Option<Option<i64>>", "Option<Option<f32>>", "Option<Option<f64>>"]

/-- The shape of the token stream produced for a field access expression by
`FieldQuoter::quote_validate_parameter` (and by the hard-coded parameter of
`create_not_null_validation`). Each constructor records the field identifier
it mentions:

* `bareIdent i` is `quote!(#ident)`
* `refSelfAsRef i` is `quote!(&self.#ident.as_ref())`
* `refSelf i` is `quote!(&self.#ident)`
* `selfField i` is `quote!(self.#ident)` -/
inductive ParamExpr : Type
  | bareIdent (i : String)
  | refSelfAsRef (i : String)
  | refSelf (i : String)
  | selfField (i : String)
deriving DecidableEq

/-- The field identifier mentioned by a parameter expression. -/
def ParamExpr.fieldIdent : ParamExpr → String
  | ParamExpr.bareIdent i => i
  | ParamExpr.refSelfAsRef i => i
  | ParamExpr.refSelf i => i
  | ParamExpr.selfField i => i

/-- Embeds `struct FieldQuoter` from `validation_derive/src/quotation.rs`:
the Rust identifier of the field, its (possibly serde-renamed) name, and the
textual type descriptor. -/
structure FieldQuoter : Type where
  ident : String
  name : String
  _type : String
deriving DecidableEq

/-- Embeds `FieldQuoter::new`. -/
def FieldQuoter.new (ident : String) (name : String) (_type : String) :
    FieldQuoter :=
  { ident := ident, name := name, _type := _type }

/-- Embeds `FieldQuoter::quote_validate_parameter` from
`validation_derive/src/quotation.rs`: the if/else chain over the textual
type descriptor, in source order - `Option<` test first, then the `COW_TYPE`
regular expression, then reference types or `NUMBER_TYPES` membership, and
pass-by-value otherwise. -/
def FieldQuoter.quote_validate_parameter (fq : FieldQuoter) : ParamExpr :=
  if strStartsWith fq._type "Option<" then
    ParamExpr.bareIdent fq.ident
  else if COW_TYPE_is_match fq._type then
    ParamExpr.refSelfAsRef fq.ident
  else if strStartsWith fq._type "&" || NUMBER_TYPES.contains fq._type then
    ParamExpr.refSelf fq.ident
  else
    ParamExpr.selfField fq.ident

/-- Embeds `enum ValidationType` from `validation_derive/src/types.rs`. -/
inductive ValidationType : Type
  | NotNull
deriving DecidableEq

/-- Embeds `ValidationType::code`. -/
def ValidationType.code : ValidationType → String
  | ValidationType.NotNull => "not_null"

/-- Embeds `struct FieldValidation` from
`validation_derive/src/field_validation.rs`. -/
structure FieldValidation : Type where
  code : String
  message : Option String
  validator : ValidationType
deriving DecidableEq

/-- Embeds `FieldValidation::new`. -/
def FieldValidation.new (validator : ValidationType) : FieldValidation :=
  { code := validator.code, message := none, validator := validator }

/-- One synthesized check, the content of the token stream returned by
`create_not_null_validation`: the expression handed to
`::validation::is_not_null`, and the diagnostic code carried by the
`ValidationError::FieldMismatch` pushed on failure. -/
structure Check : Type where
  param : ParamExpr
  code : String
deriving DecidableEq

/-- Embeds `create_not_null_validation` from
`validation_derive/src/quotation.rs`: the emitted check reads
`&self.#ident` (the function builds this expression directly, it does not
consult `quote_validate_parameter`), tests it with
`::validation::is_not_null`, and on failure pushes a
`ValidationError::FieldMismatch` carrying `validation.code` (built by
`quote_err`). The quoter's `name` is bound to an unused variable in the
source and does not occur in the emitted stream. -/
def create_not_null_validation (field_quoter : FieldQuoter)
    (validation : FieldValidation) : Check :=
  { param := ParamExpr.refSelf field_quoter.ident, code := validation.code }

/-- Embeds `create_field_validation` from
`validation_derive/src/quotation.rs`: dispatch on the validator kind. -/
def create_field_validation (field_quoter : FieldQuoter)
    (validation : FieldValidation) : Check :=
  match validation.validator with
  | ValidationType.NotNull => create_not_null_validation field_quoter validation

/-- A field attribute as consumed by `find_validations_for_field` in
`validation_derive/src/lib.rs`. `validate tokens` is a
`#[validate(..)]` list holding simple path tokens; `serde r` is a
`#[serde(..)]` list, abstracted to the result of `find_original_name`
(the rename target when a `rename = "..."` item is present). Attributes
with any other path are skipped by the source loop and are not modelled. -/
inductive Attr : Type
  | validate (tokens : List String)
  | serde (rename : Option String)
deriving DecidableEq

/-- A fatal compile-time diagnostic raised by `abort!`: the message, plus
the optional `help` annex. -/
structure Diag : Type where
  msg : String
  help : Option String
deriving DecidableEq

/-- One named-or-unnamed struct field as seen by `impl_field_validation`:
its identifier (`none` for tuple-style fields), the textual type descriptor
computed by `get_field_types`, and its attributes. -/
structure FieldDef : Type where
  ident : Option String
  ty : String
  attrs : List Attr
deriving DecidableEq

/-- The mutable state of the attribute loop in
`find_validations_for_field`: the externally-reported field name (updated
by a serde rename) and the accumulated validators. -/
structure FindState : Type where
  field_identity : String
  validators : List FieldValidation
deriving DecidableEq

/-- The token loop of `find_validations_for_field`: each simple path token
is matched against the rule registry; `not_null` pushes a validator, any
other token aborts with `Unexpected Validation: <token>`. -/
def processTokens (validators : List FieldValidation) :
    List String → Except Diag (List FieldValidation)
  | [] => Except.ok validators
  | t :: rest =>
    if t = "not_null" then
      processTokens (validators ++ [FieldValidation.new ValidationType.NotNull]) rest
    else
      Except.error { msg := "Unexpected Validation: " ++ t, help := none }

/-- One iteration of the attribute loop of `find_validations_for_field`.
A serde attribute updates the reported name from the rename target (if any)
and `continue`s, skipping the emptiness check. A validate attribute
processes its tokens, then aborts if the accumulated validator list is
still empty (`has_validate` is necessarily true on that path); the abort
message interpolates the unchanged `rust_identity`. -/
def processAttr (rust_identity : String) (st : FindState) :
    Attr → Except Diag FindState
  | Attr.serde r =>
    Except.ok { st with field_identity := r.getD st.field_identity }
  | Attr.validate tokens =>
    match processTokens st.validators tokens with
    | Except.error d => Except.error d
    | Except.ok validators =>
      if validators.isEmpty then
        Except.error
          { msg := "Invalid attribute #[validate] on field `" ++ rust_identity ++
              "`: there must be at least one validation rule"
            help := none }
      else
        Except.ok { st with validators := validators }

/-- The attribute loop of `find_validations_for_field`, folded over the
attribute list. -/
def findLoop (rust_identity : String) :
    FindState → List Attr → Except Diag FindState
  | st, [] => Except.ok st
  | st, attr :: rest =>
    match processAttr rust_identity st attr with
    | Except.error d => Except.error d
    | Except.ok st2 => findLoop rust_identity st2 rest

/-- Embeds `find_validations_for_field` from `validation_derive/src/lib.rs`:
starting from the declared Rust identifier and an empty validator list, walk
the attributes and return the resolved `(field_identity, validators)` pair,
or the first fatal diagnostic. -/
def find_validations_for_field (rust_identity : String) (attrs : List Attr) :
    Except Diag (String × List FieldValidation) :=
  match findLoop rust_identity
      { field_identity := rust_identity, validators := [] } attrs with
  | Except.error d => Except.error d
  | Except.ok st => Except.ok (st.field_identity, st.validators)

/-- The diagnostic of the unnamed-fields abort in `impl_field_validation`. -/
def unnamedFieldsDiag : Diag :=
  { msg := "struct has unnamed fields"
    help := some "#[derive(FieldValidate)] can only be used on structs with named fields" }

/-- The per-field loop of `impl_field_validation`: resolve each field, build
its `FieldQuoter` from the declared identifier, the resolved name and the
type descriptor, and append one check per validator. -/
def compileFields : List FieldDef → List Check → Except Diag (List Check)
  | [], validation_rules => Except.ok validation_rules
  | field :: rest, validation_rules =>
    match find_validations_for_field (field.ident.getD "") field.attrs with
    | Except.error d => Except.error d
    | Except.ok (name, validations) =>
      let field_quoter := FieldQuoter.new (field.ident.getD "") name field.ty
      compileFields rest
        (validation_rules ++ validations.map (create_field_validation field_quoter))

/-- Embeds `impl_field_validation` from `validation_derive/src/lib.rs`
restricted to struct inputs: abort if any field lacks a name, otherwise
compile every field in declaration order and return the list of emitted
checks (the body of the generated `validate_fields`). -/
def impl_field_validation (fields : List FieldDef) : Except Diag (List Check) :=
  if fields.any (fun field => field.ident.isNone) then
    Except.error unnamedFieldsDiag
  else
    compileFields fields []

/-- One emitted check at runtime, per the template in
`impl_field_validation`: `if !::validation::is_not_null(&self.#ident) {
let mut err = ::validation::ValidationError::FieldMismatch(#code.to_string());
errors.push(err) }`. The struct instance is the environment `env` mapping a
field identifier to its optional value. -/
def runNotNullCheck {T : Type} (env : String → Option T) (check : Check)
    (errors : List validation.ValidationError) : List validation.ValidationError :=
  if !(validation.is_not_null (env check.param.fieldIdent)) then
    errors ++ [validation.ValidationError.FieldMismatch check.code]
  else
    errors

/-- The generated `validate_fields` body, per the `quote!` template in
`impl_field_validation`: run every check in order into the `errors`
accumulator; succeed iff the accumulator stayed empty, otherwise return the
single hard-coded `ValidationError::FieldMismatch("not_null")`. -/
def validate_fields_run {T : Type} (checks : List Check)
    (env : String → Option T) : validation.ValidationResult Unit :=
  let errors := checks.foldl (fun errs check => runNotNullCheck env check errs) []
  if errors.isEmpty then
    Except.ok ()
  else
    Except.error (validation.ValidationError.FieldMismatch "not_null")

/-- End-to-end semantics: derive the checks for a struct definition, then
run the generated routine on an instance `env`. -/
def derive_and_validate {T : Type} (fields : List FieldDef)
    (env : String → Option T) : Except Diag (validation.ValidationResult Unit) :=
  (impl_field_validation fields).map (fun checks => validate_fields_run checks env)

/-- Erase the rename payload of serde attributes, keeping everything else. -/
def stripRename : Attr → Attr
  | Attr.serde _ => Attr.serde none
  | Attr.validate tokens => Attr.validate tokens

/-- Erase every serde rename in a struct definition. -/
def stripRenames (fields : List FieldDef) : List FieldDef :=
  fields.map (fun field => { field with attrs := field.attrs.map stripRename })

/-- The checks `impl_field_validation` emits for a struct whose fields carry
either no attributes or exactly one `#[validate(not_null)]` block: one
`&self.#ident` / `not_null` check per annotated field, in declaration
order. -/
def notNullChecks (fields : List FieldDef) : List Check :=
  (fields.filter
      (fun field => decide (field.attrs = [Attr.validate ["not_null"]]))).map
    (fun field =>
      { param := ParamExpr.refSelf (field.ident.getD ""), code := "not_null" })

/-- Substring occurrence on character lists: the needle occurs at some
position of the haystack. -/
def containsSubList (needle : List Char) : List Char → Bool
  | [] => needle.isEmpty
  | c :: rest => needle.isPrefixOf (c :: rest) || containsSubList needle rest

/-- Substring occurrence on strings, used to state that a diagnostic
message echoes a given token. -/
def containsSub (hay needle : String) : Bool := containsSubList needle.data hay.data

end validation_derive

/-- The `Required` struct of `validation_derive_test/src/not_null.rs`: two
fields of type `Option<DumbObject>`, both annotated `#[validate(not_null)]`. -/
def requiredFields : List validation_derive.FieldDef :=
  [{ ident := some "val", ty := "Option<DumbObject>",
     attrs := [validation_derive.Attr.validate ["not_null"]] },
   { ident := some "val_2", ty := "Option<DumbObject>",
     attrs := [validation_derive.Attr.validate ["not_null"]] }]

/-- An instance of `Required` with `val` present and `val_2` absent,
values modelled over `Nat`. -/
def envOneMissing : String → Option Nat :=
  fun s => if s = "val" then some 0 else none

/-- Concrete `StateValidation` dictionary over `Nat`, a test fixture. -/
def constOkState : validation.StateValidation Nat :=
  { validate_state := fun _ => Except.ok () }

/-- Concrete `FieldValidation` dictionary over `Nat`, a test fixture. -/
def constOkField : validation.FieldValidation Nat :=
  { validate_fields := fun _ => Except.ok () }

/-- Concrete `Validation` dictionary over `Nat`, a test fixture. -/
def constOkValidation : validation.Validation Nat :=
  { toStateValidation := constOkState
    toFieldValidation := constOkField
    validate := fun _ => Except.ok () }

/-- C2: the conversion from `ValidationError` to `ValidationErrorResponse` is
total and exhaustive: `from (FieldMismatch m)` yields code 400 with message
`m`, `from (InvalidState m)` yields code 422 with message `m`, `default`
yields code 500 with message "Internal Server Error", and no other status
code is ever produced by these constructors. -/
theorem validation_error_response_mapping :
    (∀ m : String,
        validation.ValidationErrorResponse.from (validation.ValidationError.FieldMismatch m)
          = { error_code := 400, error_message := m }) ∧
    (∀ m : String,
        validation.ValidationErrorResponse.from (validation.ValidationError.InvalidState m)
          = { error_code := 422, error_message := m }) ∧
    validation.ValidationErrorResponse.default
      = { error_code := 500, error_message := "Internal Server Error" } ∧
    (∀ e : validation.ValidationError,
        (validation.ValidationErrorResponse.from e).error_code = 400 ∨
        (validation.ValidationErrorResponse.from e).error_code = 422) := by
  refine ⟨fun m => rfl, fun m => rfl, rfl, fun e => ?_⟩
  cases e with
  | FieldMismatch m => exact Or.inl rfl
  | InvalidState m => exact Or.inr rfl

/-- C3: the blanket reference implementations delegate without altering the
outcome: for every capability dictionary and every value, `validate`,
`validate_state` and `validate_fields` called through a read-only reference
return exactly the result of the call on the owned value. -/
theorem ref_impls_delegate {T : Type} (sv : validation.StateValidation T)
    (fv : validation.FieldValidation T) (vv : validation.Validation T) (v : T) :
    (sv.refImpl.validate_state v = sv.validate_state v) ∧
    (fv.refImpl.validate_fields v = fv.validate_fields v) ∧
    (vv.refImpl.validate v = vv.validate v) ∧
    (vv.refImpl.validate_state v = vv.validate_state v) ∧
    (vv.refImpl.validate_fields v = vv.validate_fields v) :=
  ⟨rfl, rfl, rfl, rfl, rfl⟩

/-- Closed instance of `ref_impls_delegate` at concrete dictionaries over `Nat`. -/
theorem ref_impls_delegate_witness :
    (constOkState.refImpl.validate_state ((3 : Nat) : validation.Ref Nat)
      = constOkState.validate_state 3) ∧
    (constOkField.refImpl.validate_fields ((3 : Nat) : validation.Ref Nat)
      = constOkField.validate_fields 3) ∧
    (constOkValidation.refImpl.validate ((3 : Nat) : validation.Ref Nat)
      = constOkValidation.validate 3) :=
  ⟨(ref_impls_delegate constOkState constOkField constOkValidation 3).1,
   (ref_impls_delegate constOkState constOkField constOkValidation 3).2.1,
   (ref_impls_delegate constOkState constOkField constOkValidation 3).2.2.1⟩

/-- C10: `is_in_collection value collection` returns `true` exactly when some
element of the collection equals `value`; in particular it returns `false`
on the empty collection. -/
theorem is_in_collection_iff_mem {T : Type} [DecidableEq T] (value : T)
    (collection : List T) :
    (validation.is_in_collection value collection = true ↔
      ∃ x ∈ collection, x = value) ∧
    validation.is_in_collection value ([] : List T) = false := by
  constructor
  · induction collection with
    | nil =>
      simp [validation.is_in_collection]
    | cons item rest ih =>
      by_cases h : item = value
      · subst h
        simp [validation.is_in_collection]
      · simp only [validation.is_in_collection, if_neg h, ih]
        constructor
        · rintro ⟨x, hx, hxe⟩
          exact ⟨x, List.mem_cons_of_mem _ hx, hxe⟩
        · rintro ⟨x, hx, hxe⟩
          rcases List.mem_cons.mp hx with h1 | h1
          · exact absurd (h1 ▸ hxe) h
          · exact ⟨x, h1, hxe⟩
  · rfl

/-- Closed instance of `is_in_collection_iff_mem` on concrete inputs. -/
theorem is_in_collection_iff_mem_witness :
    (validation.is_in_collection 32 [32, 44, 55] = true ↔
      ∃ x ∈ [32, 44, 55], x = 32) ∧
    validation.is_in_collection 32 ([] : List Nat) = false :=
  is_in_collection_iff_mem 32 [32, 44, 55]

theorem isPrefixOf_self (l : List Char) : l.isPrefixOf l = true := by
  induction l with
  | nil => rfl
  | cons c rest ih => simp [List.isPrefixOf, ih]

theorem containsSubList_append_self (needle pre : List Char) :
    validation_derive.containsSubList needle (pre ++ needle) = true := by
  induction pre with
  | nil =>
    cases needle with
    | nil => rfl
    | cons c rest =>
      simp [validation_derive.containsSubList, isPrefixOf_self]
  | cons c rest ih =>
    simp [validation_derive.containsSubList, ih]

theorem containsSubList_append_left (needle pre hay : List Char)
    (h : validation_derive.containsSubList needle hay = true) :
    validation_derive.containsSubList needle (pre ++ hay) = true := by
  induction pre with
  | nil => simpa using h
  | cons c rest ih =>
    simp [validation_derive.containsSubList, ih]

/-- C4 counterexample: the field type `Option<i32>` is in `NUMBER_TYPES`,
yet `quote_validate_parameter` classifies it by the `Option<` branch and
produces the bare identifier, not a reference to the field: the `Option<`
test precedes the `NUMBER_TYPES` test in the source. -/
theorem numeric_option_classified_as_optional_cex :
    "Option<i32>" ∈ validation_derive.NUMBER_TYPES ∧
    (validation_derive.FieldQuoter.new "val" "val" "Option<i32>").quote_validate_parameter
      = validation_derive.ParamExpr.bareIdent "val" ∧
    validation_derive.ParamExpr.bareIdent "val"
      ≠ validation_derive.ParamExpr.refSelf "val" := by
  refine ⟨by decide, by decide, by decide⟩

/-- C4 amended: a field whose textual type descriptor is in `NUMBER_TYPES`
is classified pass-by-reference only when the descriptor does not start
with `Option<`; the optional-wrapped numeric entries of `NUMBER_TYPES` are
caught by the earlier `Option<` branch and yield the bare identifier. The
classifier is a function, so each field gets exactly one convention. -/
theorem number_types_classification (ident name ty : String)
    (h : ty ∈ validation_derive.NUMBER_TYPES) :
    (validation_derive.FieldQuoter.new ident name ty).quote_validate_parameter
      = if validation_derive.strStartsWith ty "Option<" then
          validation_derive.ParamExpr.bareIdent ident
        else
          validation_derive.ParamExpr.refSelf ident := by
  simp only [validation_derive.NUMBER_TYPES] at h
  fin_cases h <;> rfl

/-- Closed instance of `number_types_classification` at type `i32`. -/
theorem number_types_classification_witness :
    "i32" ∈ validation_derive.NUMBER_TYPES ∧
    (validation_derive.FieldQuoter.new "val" "val" "i32").quote_validate_parameter
      = if validation_derive.strStartsWith "i32" "Option<" then
          validation_derive.ParamExpr.bareIdent "val"
        else
          validation_derive.ParamExpr.refSelf "val" :=
  ⟨by decide, number_types_classification "val" "val" "i32" (by decide)⟩

/-- C5 counterexample: for the field `val: Option<DumbObject>` of the test
struct, the classifier chooses the bare-identifier convention, but the
check synthesized by `create_not_null_validation` passes `&self.val` - the
two disagree, because `create_not_null_validation` builds its parameter
expression directly and never consults `quote_validate_parameter`. -/
theorem not_null_check_ignores_classifier_cex :
    (validation_derive.create_not_null_validation
        (validation_derive.FieldQuoter.new "val" "val" "Option<DumbObject>")
        (validation_derive.FieldValidation.new
          validation_derive.ValidationType.NotNull)).param
      = validation_derive.ParamExpr.refSelf "val" ∧
    (validation_derive.FieldQuoter.new "val" "val" "Option<DumbObject>").quote_validate_parameter
      = validation_derive.ParamExpr.bareIdent "val" ∧
    validation_derive.ParamExpr.refSelf "val"
      ≠ validation_derive.ParamExpr.bareIdent "val" := by
  refine ⟨by decide, by decide, by decide⟩

/-- C5 amended: the check synthesized for the `not_null` rule always obtains
the field value as `&self.#ident`, whatever the field type; it agrees with
the classifier exactly for the fields the classifier sends to the
pass-by-reference convention. -/
theorem not_null_check_param_always_ref_self
    (fq : validation_derive.FieldQuoter) (v : validation_derive.FieldValidation) :
    (validation_derive.create_not_null_validation fq v).param
      = validation_derive.ParamExpr.refSelf fq.ident ∧
    ((validation_derive.create_not_null_validation fq v).param
        = fq.quote_validate_parameter ↔
      fq.quote_validate_parameter = validation_derive.ParamExpr.refSelf fq.ident) :=
  ⟨rfl, eq_comm⟩

/-- Closed instance of `not_null_check_param_always_ref_self`. -/
theorem not_null_check_param_always_ref_self_witness :
    (validation_derive.create_not_null_validation
        (validation_derive.FieldQuoter.new "val" "val" "i32")
        (validation_derive.FieldValidation.new
          validation_derive.ValidationType.NotNull)).param
      = validation_derive.ParamExpr.refSelf "val" :=
  (not_null_check_param_always_ref_self
      (validation_derive.FieldQuoter.new "val" "val" "i32")
      (validation_derive.FieldValidation.new
        validation_derive.ValidationType.NotNull)).1

theorem processTokens_unknown (t : String) (ht : t ≠ "not_null") :
    ∀ (pre : List String), (∀ x ∈ pre, x = "not_null") → ∀ (post : List String)
      (acc : List validation_derive.FieldValidation),
      validation_derive.processTokens acc (pre ++ t :: post)
        = Except.error { msg := "Unexpected Validation: " ++ t, help := none }
  | [], _, post, acc => by
    simp [validation_derive.processTokens, ht]
  | x :: rest, hpre, post, acc => by
    have hx : x = "not_null" := hpre x (List.mem_cons_self x rest)
    subst hx
    simp only [List.cons_append, validation_derive.processTokens, if_pos rfl]
    exact processTokens_unknown t ht rest
      (fun y hy => hpre y (List.mem_cons_of_mem _ hy)) post _

/-- C7 counterexample: for the field `foo` annotated with the unknown rule
token `min`, the derive aborts with the message `Unexpected Validation: min`,
which does not contain the field name `foo`. -/
theorem unknown_rule_message_lacks_field_name_cex :
    validation_derive.find_validations_for_field "foo"
        [validation_derive.Attr.validate ["min"]]
      = Except.error { msg := "Unexpected Validation: min", help := none } ∧
    validation_derive.containsSub "Unexpected Validation: min" "foo" = false := by
  refine ⟨by decide, by decide⟩

/-- C7 amended: for every field annotated with a rule token other than
`not_null` (lookup is case-sensitive exact match; any earlier tokens being
the known rule), the derive aborts with the fatal diagnostic
`Unexpected Validation: <token>`: the message echoes the unknown token but
not the field name. -/
theorem unknown_rule_abort (ident t : String) (pre post : List String)
    (hpre : ∀ x ∈ pre, x = "not_null") (ht : t ≠ "not_null") :
    validation_derive.find_validations_for_field ident
        [validation_derive.Attr.validate (pre ++ t :: post)]
      = Except.error { msg := "Unexpected Validation: " ++ t, help := none } ∧
    validation_derive.containsSub ("Unexpected Validation: " ++ t) t = true := by
  constructor
  · simp [validation_derive.find_validations_for_field, validation_derive.findLoop,
      validation_derive.processAttr, processTokens_unknown t ht pre hpre post]
  · show validation_derive.containsSubList t.data
      ("Unexpected Validation: ".data ++ t.data) = true
    exact containsSubList_append_self t.data _

/-- Closed instance of `unknown_rule_abort` at field `foo` and token `min`. -/
theorem unknown_rule_abort_witness :
    (∀ x ∈ ([] : List String), x = "not_null") ∧ "min" ≠ "not_null" ∧
    (validation_derive.find_validations_for_field "foo"
        [validation_derive.Attr.validate ([] ++ "min" :: [])]
      = Except.error { msg := "Unexpected Validation: " ++ "min", help := none } ∧
    validation_derive.containsSub ("Unexpected Validation: " ++ "min") "min" = true) :=
  ⟨by decide, by decide,
    unknown_rule_abort "foo" "min" [] [] (by decide) (by decide)⟩

/-- C8: deriving `FieldValidate` on a struct with at least one unnamed
(tuple-style) field is a fatal compile-time failure - no routine is emitted -
and the diagnostic's help text states that only structs with named fields
are supported. -/
theorem unnamed_fields_abort (fields : List validation_derive.FieldDef)
    (h : ∃ f ∈ fields, f.ident = none) :
    validation_derive.impl_field_validation fields
      = Except.error validation_derive.unnamedFieldsDiag ∧
    validation_derive.unnamedFieldsDiag.help
      = some "#[derive(FieldValidate)] can only be used on structs with named fields" := by
  have hany : fields.any (fun field => field.ident.isNone) = true := by
    obtain ⟨f, hf, hfn⟩ := h
    exact List.any_eq_true.mpr ⟨f, hf, by rw [hfn]; rfl⟩
  exact ⟨by simp [validation_derive.impl_field_validation, hany], rfl⟩

/-- Closed instance of `unnamed_fields_abort` at a one-field tuple struct. -/
theorem unnamed_fields_abort_witness :
    (∃ f ∈ [({ ident := none, ty := "i32", attrs := [] } :
        validation_derive.FieldDef)], f.ident = none) ∧
    validation_derive.impl_field_validation
        [{ ident := none, ty := "i32", attrs := [] }]
      = Except.error validation_derive.unnamedFieldsDiag :=
  ⟨by decide,
    (unnamed_fields_abort [{ ident := none, ty := "i32", attrs := [] }] (by decide)).1⟩

/-- C9 counterexample: the block `#[validate(foo)]` on field `val` contains
zero recognized rule tokens, yet the derive aborts with
`Unexpected Validation: foo`, a diagnostic that does not state that at
least one validation rule is required. -/
theorem empty_recognized_rules_message_cex :
    validation_derive.find_validations_for_field "val"
        [validation_derive.Attr.validate ["foo"]]
      = Except.error { msg := "Unexpected Validation: foo", help := none } ∧
    validation_derive.containsSub "Unexpected Validation: foo"
      "there must be at least one validation rule" = false := by
  refine ⟨by decide, by decide⟩

/-- C9 amended: a `#[validate(..)]` block with no tokens at all aborts with
the fatal diagnostic that there must be at least one validation rule
(interpolating the field name); a block whose tokens are all unrecognized
aborts earlier, at the first unknown token, with the
`Unexpected Validation` diagnostic instead. -/
theorem empty_validate_block_abort (ident : String) :
    validation_derive.find_validations_for_field ident
        [validation_derive.Attr.validate []]
      = Except.error
          { msg := "Invalid attribute #[validate] on field `" ++ ident ++
              "`: there must be at least one validation rule"
            help := none } ∧
    validation_derive.containsSub
      ("Invalid attribute #[validate] on field `" ++ ident ++
        "`: there must be at least one validation rule")
      "there must be at least one validation rule" = true := by
  constructor
  · rfl
  · show validation_derive.containsSubList
      "there must be at least one validation rule".data
      (("Invalid attribute #[validate] on field `".data ++ ident.data) ++
        "`: there must be at least one validation rule".data) = true
    exact containsSubList_append_left _ _ _ (by decide)

/-- Closed instance of `empty_validate_block_abort` at field `val`. -/
theorem empty_validate_block_abort_witness :
    validation_derive.find_validations_for_field "val"
        [validation_derive.Attr.validate []]
      = Except.error
          { msg := "Invalid attribute #[validate] on field `" ++ "val" ++
              "`: there must be at least one validation rule"
            help := none } :=
  (empty_validate_block_abort "val").1

open validation_derive

theorem findLoop_strip (r : String) :
    ∀ (attrs : List Attr) (n1 n2 : String) (vs : List FieldValidation),
      (findLoop r { field_identity := n1, validators := vs }
          (attrs.map stripRename)).map (fun st => st.validators)
        = (findLoop r { field_identity := n2, validators := vs } attrs).map
          (fun st => st.validators)
  | [], n1, n2, vs => rfl
  | Attr.serde rn :: rest, n1, n2, vs => by
    simp only [List.map_cons, stripRename, findLoop, processAttr, Option.getD_none]
    exact findLoop_strip r rest n1 (rn.getD n2) vs
  | Attr.validate tokens :: rest, n1, n2, vs => by
    simp only [List.map_cons, stripRename, findLoop, processAttr]
    cases h : processTokens vs tokens with
    | error d => simp
    | ok validators =>
      by_cases he : validators.isEmpty
      · simp [he]
      · simp only [he, Bool.false_eq_true, if_neg, ite_false]
        exact findLoop_strip r rest n1 n2 validators

theorem find_strip (r : String) (attrs : List Attr) :
    (find_validations_for_field r (attrs.map stripRename)).map (fun p => p.2)
      = (find_validations_for_field r attrs).map (fun p => p.2) := by
  have h := findLoop_strip r attrs r r []
  unfold find_validations_for_field
  cases h1 : findLoop r { field_identity := r, validators := [] } (attrs.map stripRename) with
  | error d =>
    rw [h1] at h
    cases h2 : findLoop r { field_identity := r, validators := [] } attrs with
    | error d2 => rw [h2] at h; simp [Except.map] at h; simp [h]
    | ok st => rw [h2] at h; simp [Except.map] at h
  | ok st =>
    rw [h1] at h
    cases h2 : findLoop r { field_identity := r, validators := [] } attrs with
    | error d2 => rw [h2] at h; simp [Except.map] at h
    | ok st2 => rw [h2] at h; simp [Except.map] at h; simp [Except.map, h]

theorem create_field_validation_name_irrelevant (i n1 n2 ty1 ty2 : String)
    (v : FieldValidation) :
    create_field_validation (FieldQuoter.new i n1 ty1) v
      = create_field_validation (FieldQuoter.new i n2 ty2) v := by
  cases v with
  | mk code message validator =>
    cases validator
    rfl

theorem compileFields_strip :
    ∀ (fields : List FieldDef) (acc : List Check),
      compileFields (stripRenames fields) acc = compileFields fields acc
  | [], acc => rfl
  | f :: rest, acc => by
    show compileFields
        ({ f with attrs := f.attrs.map stripRename } :: stripRenames rest) acc
      = compileFields (f :: rest) acc
    simp only [compileFields]
    have h := find_strip (f.ident.getD "") f.attrs
    cases h1 : find_validations_for_field (f.ident.getD "") (f.attrs.map stripRename) with
    | error d =>
      rw [h1] at h
      cases h2 : find_validations_for_field (f.ident.getD "") f.attrs with
      | error d2 => rw [h2] at h; simp [Except.map] at h; simp [h]
      | ok p => rw [h2] at h; simp [Except.map] at h
    | ok p =>
      rw [h1] at h
      cases h2 : find_validations_for_field (f.ident.getD "") f.attrs with
      | error d2 => rw [h2] at h; simp [Except.map] at h
      | ok p2 =>
        rw [h2] at h
        simp [Except.map] at h
        obtain ⟨n1, vs1⟩ := p
        obtain ⟨n2, vs2⟩ := p2
        dsimp only
        dsimp only at h
        subst h
        have hmap : vs1.map (create_field_validation
              (FieldQuoter.new (f.ident.getD "") n1 f.ty))
            = vs1.map (create_field_validation
              (FieldQuoter.new (f.ident.getD "") n2 f.ty)) :=
          List.map_congr_left (fun v _ =>
            create_field_validation_name_irrelevant _ _ _ _ _ v)
        rw [hmap]
        exact compileFields_strip rest _

/-- C6: serde renames never change the emitted checks: compiling a struct
with every rename payload erased yields exactly the same result (same
checks, same diagnostics) as compiling the original, so `validate_fields`
behaves identically with or without renames; and for a renamed
`not_null` field the single emitted check reads `&self.#ident` through the
original declared Rust identifier, not the rename target. -/
theorem rename_independence :
    (∀ fields : List FieldDef,
        impl_field_validation (stripRenames fields) = impl_field_validation fields) ∧
    (∀ ident ty rn : String,
        impl_field_validation
            [{ ident := some ident, ty := ty,
               attrs := [Attr.serde (some rn), Attr.validate ["not_null"]] }]
          = Except.ok [{ param := ParamExpr.refSelf ident, code := "not_null" }]) := by
  constructor
  · intro fields
    unfold impl_field_validation
    have hany : (stripRenames fields).any (fun field => field.ident.isNone)
        = fields.any (fun field => field.ident.isNone) := by
      simp [stripRenames, List.any_map]
      rfl
    rw [hany]
    by_cases h : fields.any (fun field => field.ident.isNone)
    · simp [h]
    · simp only [h, Bool.false_eq_true, if_neg, ite_false]
      exact compileFields_strip fields []
  · intro ident ty rn
    rfl

/-- Closed instance of `rename_independence` at a renamed `not_null` field. -/
theorem rename_independence_witness :
    impl_field_validation
        (stripRenames
          [{ ident := some "val", ty := "Option<i32>",
             attrs := [Attr.serde (some "value"), Attr.validate ["not_null"]] }])
      = impl_field_validation
          [{ ident := some "val", ty := "Option<i32>",
             attrs := [Attr.serde (some "value"), Attr.validate ["not_null"]] }] :=
  rename_independence.1
    [{ ident := some "val", ty := "Option<i32>",
       attrs := [Attr.serde (some "value"), Attr.validate ["not_null"]] }]

theorem runNotNullCheck_pass {T : Type} (env : String → Option T) (check : Check)
    (acc : List validation.ValidationError)
    (h : (env check.param.fieldIdent).isSome = true) :
    runNotNullCheck env check acc = acc := by
  simp [runNotNullCheck, validation.is_not_null, h]

theorem runNotNullCheck_fail {T : Type} (env : String → Option T) (check : Check)
    (acc : List validation.ValidationError)
    (h : ¬(env check.param.fieldIdent).isSome = true) :
    runNotNullCheck env check acc
      = acc ++ [validation.ValidationError.FieldMismatch check.code] := by
  simp only [Bool.not_eq_true] at h
  simp [runNotNullCheck, validation.is_not_null, h]

theorem foldl_runNotNullCheck {T : Type} (env : String → Option T) :
    ∀ (checks : List Check) (acc : List validation.ValidationError),
      checks.foldl (fun errs check => runNotNullCheck env check errs) acc
        = acc ++ (checks.filter
            (fun check => !(env check.param.fieldIdent).isSome)).map
            (fun check => validation.ValidationError.FieldMismatch check.code)
  | [], acc => by simp
  | check :: rest, acc => by
    rw [List.foldl_cons, foldl_runNotNullCheck env rest _]
    by_cases h : (env check.param.fieldIdent).isSome = true
    · rw [runNotNullCheck_pass env check acc h]
      have hnone : (env check.param.fieldIdent).isNone = false := by
        cases henv : env check.param.fieldIdent
        · rw [henv] at h; cases h
        · rfl
      simp [List.filter_cons, hnone]
    · rw [runNotNullCheck_fail env check acc h]
      have hnone : (env check.param.fieldIdent).isNone = true := by
        cases henv : env check.param.fieldIdent
        · rfl
        · rw [henv] at h; exact absurd rfl h
      simp [List.filter_cons, hnone, List.append_assoc]

theorem validate_fields_run_eq {T : Type} (checks : List Check)
    (env : String → Option T) :
    validate_fields_run checks env
      = if (checks.foldl (fun errs check => runNotNullCheck env check errs)
            []).isEmpty
        then Except.ok ()
        else Except.error (validation.ValidationError.FieldMismatch "not_null") := rfl

theorem validate_fields_run_iff {T : Type} (checks : List Check)
    (env : String → Option T) :
    (validate_fields_run checks env = Except.ok () ↔
      ∀ check ∈ checks, (env check.param.fieldIdent).isSome = true) ∧
    (validate_fields_run checks env
        = Except.error (validation.ValidationError.FieldMismatch "not_null") ↔
      ∃ check ∈ checks, ¬(env check.param.fieldIdent).isSome = true) := by
  rw [validate_fields_run_eq, foldl_runNotNullCheck env checks [], List.nil_append]
  by_cases hall : ∀ check ∈ checks, (env check.param.fieldIdent).isSome = true
  · have hfilter : checks.filter
        (fun check => !(env check.param.fieldIdent).isSome) = [] := by
      rw [List.filter_eq_nil_iff]
      intro c hc
      simp [hall c hc]
    rw [hfilter]
    simp only [List.map_nil, List.isEmpty_nil, if_pos]
    refine ⟨iff_of_true trivial hall, iff_of_false (fun h => Except.noConfusion h) ?_⟩
    rintro ⟨c, hc, hn⟩
    exact hn (hall c hc)
  · have hex : ∃ check ∈ checks, ¬(env check.param.fieldIdent).isSome = true := by
      push_neg at hall
      obtain ⟨c, hc, hn⟩ := hall
      exact ⟨c, hc, hn⟩
    have hfilter : checks.filter
        (fun check => !(env check.param.fieldIdent).isSome) ≠ [] := by
      obtain ⟨c, hc, hn⟩ := hex
      intro hnil
      rw [List.filter_eq_nil_iff] at hnil
      exact hnil c hc (by simp [Bool.not_eq_true] at hn ⊢; exact hn)
    have hne : ((checks.filter
          (fun check => !(env check.param.fieldIdent).isSome)).map
          (fun check => validation.ValidationError.FieldMismatch check.code)).isEmpty
        = false := by
      rw [List.isEmpty_eq_false]
      simp only [ne_eq, List.map_eq_nil_iff]
      exact hfilter
    rw [hne, if_neg (fun hc => Bool.noConfusion hc)]
    refine ⟨iff_of_false (fun h => Except.noConfusion h) hall, iff_of_true rfl hex⟩

theorem compileFields_notNull :
    ∀ (fields : List FieldDef),
      (∀ f ∈ fields, f.attrs = [] ∨ f.attrs = [Attr.validate ["not_null"]]) →
      ∀ acc : List Check,
        compileFields fields acc = Except.ok (acc ++ notNullChecks fields)
  | [], _, acc => by simp [compileFields, notNullChecks]
  | f :: rest, hA, acc => by
    have hrest : ∀ g ∈ rest, g.attrs = [] ∨ g.attrs = [Attr.validate ["not_null"]] :=
      fun g hg => hA g (List.mem_cons_of_mem _ hg)
    rcases hA f (List.mem_cons_self f rest) with h | h
    · have hfind : find_validations_for_field (f.ident.getD "") f.attrs
          = Except.ok (f.ident.getD "", []) := by rw [h]; rfl
      simp only [compileFields, hfind, List.map_nil, List.append_nil]
      rw [compileFields_notNull rest hrest acc]
      have hchecks : notNullChecks (f :: rest) = notNullChecks rest := by
        simp [notNullChecks, List.filter_cons, h]
      rw [hchecks]
    · have hfind : find_validations_for_field (f.ident.getD "") f.attrs
          = Except.ok (f.ident.getD "",
              [FieldValidation.new ValidationType.NotNull]) := by
        rw [h]; rfl
      simp only [compileFields, hfind, List.map_cons, List.map_nil]
      rw [compileFields_notNull rest hrest _]
      have hchecks : notNullChecks (f :: rest)
          = { param := ParamExpr.refSelf (f.ident.getD ""), code := "not_null" }
            :: notNullChecks rest := by
        simp [notNullChecks, List.filter_cons, h]
      rw [hchecks]
      simp [create_field_validation, create_not_null_validation,
        FieldValidation.new, ValidationType.code, FieldQuoter.new]

theorem notNullChecks_mem (fields : List FieldDef) (check : Check) :
    check ∈ notNullChecks fields ↔
      ∃ f ∈ fields, f.attrs = [Attr.validate ["not_null"]] ∧
        check = { param := ParamExpr.refSelf (f.ident.getD ""), code := "not_null" } := by
  simp only [notNullChecks, List.mem_map, List.mem_filter, decide_eq_true_eq]
  constructor
  · rintro ⟨f, ⟨hf, hann⟩, rfl⟩
    exact ⟨f, hf, hann, rfl⟩
  · rintro ⟨f, hf, hann, rfl⟩
    exact ⟨f, ⟨hf, hann⟩, rfl⟩

/-- C1: for a named-field struct whose fields carry either no validation
attributes or exactly one `#[validate(not_null)]` block, with at least one
field annotated, the derive succeeds and the generated `validate_fields`
returns success iff every annotated field holds a present (`Some`) value,
and returns exactly `Err(ValidationError::FieldMismatch("not_null"))` iff
at least one annotated field is absent - the same single error value no
matter how many fields are absent. -/
theorem not_null_validate_fields_iff {T : Type} (fields : List FieldDef)
    (env : String → Option T)
    (hN : ∀ f ∈ fields, f.ident ≠ none)
    (hA : ∀ f ∈ fields, f.attrs = [] ∨ f.attrs = [Attr.validate ["not_null"]])
    (hE : ∃ f ∈ fields, f.attrs = [Attr.validate ["not_null"]]) :
    (derive_and_validate fields env = Except.ok (Except.ok ()) ↔
      ∀ f ∈ fields, f.attrs = [Attr.validate ["not_null"]] →
        (env (f.ident.getD "")).isSome = true) ∧
    (derive_and_validate fields env
        = Except.ok (Except.error (validation.ValidationError.FieldMismatch "not_null")) ↔
      ∃ f ∈ fields, f.attrs = [Attr.validate ["not_null"]] ∧
        ¬(env (f.ident.getD "")).isSome = true) := by
  have hany : fields.any (fun field => field.ident.isNone) = false := by
    rw [List.any_eq_false]
    intro f hf
    cases hident : f.ident
    · exact absurd hident (hN f hf)
    · simp
  have himpl : impl_field_validation fields = Except.ok (notNullChecks fields) := by
    unfold impl_field_validation
    rw [hany, if_neg (fun hc => Bool.noConfusion hc)]
    simpa using compileFields_notNull fields hA []
  have hrun := validate_fields_run_iff (notNullChecks fields) env
  have hder : derive_and_validate fields env
      = Except.ok (validate_fields_run (notNullChecks fields) env) := by
    unfold derive_and_validate
    rw [himpl]
    rfl
  rw [hder]
  constructor
  · simp only [Except.ok.injEq]
    rw [hrun.1]
    constructor
    · intro h f hf hann
      have := h { param := ParamExpr.refSelf (f.ident.getD ""), code := "not_null" }
        ((notNullChecks_mem fields _).mpr ⟨f, hf, hann, rfl⟩)
      simpa [ParamExpr.fieldIdent] using this
    · intro h check hc
      obtain ⟨f, hf, hann, rfl⟩ := (notNullChecks_mem fields check).mp hc
      simpa [ParamExpr.fieldIdent] using h f hf hann
  · simp only [Except.ok.injEq]
    rw [hrun.2]
    constructor
    · rintro ⟨check, hc, hn⟩
      obtain ⟨f, hf, hann, rfl⟩ := (notNullChecks_mem fields check).mp hc
      exact ⟨f, hf, hann, by simpa [ParamExpr.fieldIdent] using hn⟩
    · rintro ⟨f, hf, hann, hn⟩
      exact ⟨{ param := ParamExpr.refSelf (f.ident.getD ""), code := "not_null" },
        (notNullChecks_mem fields _).mpr ⟨f, hf, hann, rfl⟩,
        by simpa [ParamExpr.fieldIdent] using hn⟩

/-- Closed instance of `not_null_validate_fields_iff` at the two-field
`Required` struct of the test crate, with `val` present and `val_2`
absent: the result is the single `FieldMismatch("not_null")` error. -/
theorem not_null_validate_fields_iff_witness :
    (∀ f ∈ requiredFields, f.ident ≠ none) ∧
    (∀ f ∈ requiredFields,
        f.attrs = [] ∨ f.attrs = [Attr.validate ["not_null"]]) ∧
    (∃ f ∈ requiredFields, f.attrs = [Attr.validate ["not_null"]]) ∧
    derive_and_validate requiredFields envOneMissing
      = Except.ok (Except.error (validation.ValidationError.FieldMismatch "not_null")) := by
  refine ⟨by decide, by decide, by decide, ?_⟩
  exact (not_null_validate_fields_iff requiredFields envOneMissing
      (by decide) (by decide) (by decide)).2.mpr
    (by decide)
